import Mathlib

/-!
Shallow embedding of `src/app.py` (ViralGenix): the sqlite-backed credential
and content tables, the bcrypt password handling, the login/registration form
handler in `login_page`, and the content-generation button handler in `main`.
Randomness (bcrypt salts), the wall clock (`CURRENT_TIMESTAMP`) and the
generative-AI service are passed in as explicit parameters; sqlite tables are
modelled as lists of rows kept in rowid (insertion) order.
-/

namespace ViralGenix

/-- Byte strings (UTF-8 byte values), the type of `str.encode` payloads. -/
abbrev Bytes := List Nat

/-- Model of the bcrypt digest core used by the third-party `bcrypt` library
(its code is not part of this repository).  Two documented behaviours of
`bcrypt.hashpw` are kept faithfully: only the first 72 bytes of the password
enter the digest (longer passwords are silently truncated), and the digest
depends on the salt.  The EksBlowfish one-way core itself is idealised as a
collision-free function whose outputs lie outside the single-byte range
`0..255`, standing in for the collision resistance and non-invertibility
assumed of bcrypt; everything else about salts, truncation and the
recompute-and-compare check is as the library documents. -/
def bcryptDigest (salt : Nat) (pw : Bytes) : Bytes :=
  (pw.take 72).map (fun b => b + 256 * (salt + 1))

/-- Model of `bcrypt.hashpw(password, bcrypt.gensalt())` (src/app.py line 108):
the stored record is a modular-crypt-format value carrying a fixed header
(the bytes of the `$2b$` prefix), the salt, and the digest.  The salt is a
parameter standing for the randomness of `gensalt()`. -/
def hashpw (pw : Bytes) (salt : Nat) : Bytes :=
  36 :: 50 :: 98 :: 36 :: salt :: bcryptDigest salt pw

/-- Model of `bcrypt.checkpw(password, stored)` (src/app.py line 95): read the
salt back out of the stored record, recompute the digest for the candidate
password with that salt, and compare. -/
def checkpw (pw : Bytes) (stored : Bytes) : Bool :=
  match stored with
  | a :: b :: c :: d :: salt :: digest =>
      a == 36 && b == 50 && c == 98 && d == 36 && bcryptDigest salt pw == digest
  | _ => false

/-- A row of the sqlite `users` table (src/app.py line 50); the `password`
column stores the bcrypt hash bytes. -/
structure Account where
  id : Nat
  username : String
  password : Bytes
deriving DecidableEq

/-- A row of the sqlite `contents` table (src/app.py lines 51-62). -/
structure ContentRecord where
  id : Nat
  user_id : Nat
  tema : String
  artigo : String
  roteiro : String
  legendas : String
  created_at : Nat
deriving DecidableEq

/-- The sqlite database `viralgenix.db`: both tables, rows in rowid order.
(The `insights` table is created but never read or written by the program.) -/
structure DB where
  users : List Account
  contents : List ContentRecord
deriving DecidableEq

/-- The `st.session_state` keys touched by the authentication flow
(src/app.py lines 80, 96-98). -/
structure Session where
  logged_in : Bool
  username : Option String
  user_id : Option Nat
deriving DecidableEq

/-- What the handler surfaces to the user: nothing, a page rerun, or an
`st.success` / `st.error` / `st.warning` message. -/
inductive Surface where
  | silent
  | rerun
  | success (msg : String)
  | error (msg : String)
  | warning (msg : String)
deriving DecidableEq

/-- The two form submissions of `login_page` (src/app.py lines 84-117); the
register action carries the salt drawn by `bcrypt.gensalt()`. -/
inductive AuthAction where
  | login (username : String) (password : Bytes)
  | registerA (username : String) (password : Bytes) (salt : Nat)
deriving DecidableEq

/-- Next rowid assigned by sqlite `INTEGER PRIMARY KEY`: one more than the
largest existing rowid. -/
def nextUserId (db : DB) : Nat := (db.users.map Account.id).foldr max 0 + 1

/-- Next rowid for the `contents` table. -/
def nextContentId (db : DB) : Nat :=
  (db.contents.map ContentRecord.id).foldr max 0 + 1

/-- The registration submit handler (src/app.py lines 106-117): if both fields
are non-empty (Python truthiness of the two strings), hash the password and
INSERT the row; the sqlite `UNIQUE` constraint on `username` raises
`IntegrityError` exactly when a row with that username already exists, which
the handler surfaces as an error; empty fields surface a warning. -/
def register (db : DB) (username : String) (password : Bytes) (salt : Nat) :
    DB × Surface :=
  if username ≠ "" ∧ password ≠ [] then
    if db.users.any (fun a => a.username == username) then
      (db, Surface.error "Esse nome de usuário já existe.")
    else
      ({ db with
          users := db.users ++ [⟨nextUserId db, username, hashpw password salt⟩] },
        Surface.success "Usuário registrado! Agora você pode fazer login.")
  else (db, Surface.warning "Por favor, preencha todos os campos.")

/-- The credential check of the login handler (src/app.py lines 89-100):
`SELECT id, password FROM users WHERE username=?` with `fetchone` (first row
in rowid order), then `if user_data and bcrypt.checkpw(...)`.  Returns the
account id on success and `none` on either failure cause. -/
def verify (db : DB) (username : String) (password : Bytes) : Option Nat :=
  match db.users.find? (fun a => a.username == username) with
  | some a => if checkpw password a.password then some a.id else none
  | none => none

/-- One submission step of `login_page` (src/app.py lines 77-118): an early
return when already logged in, otherwise the login or registration handler.
A successful login writes the three session keys and reruns; a failed login
surfaces the single error message used for both failure causes; registration
never touches the session. -/
def login_page (sess : Session) (db : DB) (act : AuthAction) :
    Session × DB × Surface :=
  if sess.logged_in then (sess, db, Surface.silent)
  else
    match act with
    | AuthAction.login u p =>
        match verify db u p with
        | some uid =>
            (⟨true, some u, some uid⟩, db, Surface.rerun)
        | none => (sess, db, Surface.error "Usuário ou senha inválidos.")
    | AuthAction.registerA u p salt =>
        let r := register db u p salt
        (sess, r.1, r.2)

/-- The content INSERT (src/app.py line 155): sqlite appends the row with the
next rowid and `created_at` set to `CURRENT_TIMESTAMP` (passed in as `now`).
The declared `FOREIGN KEY(user_id)` is never enforced: the program never runs
`PRAGMA foreign_keys=ON`, and sqlite leaves foreign keys off by default, so
the INSERT succeeds for any `user_id`. -/
def append (db : DB) (user_id : Nat)
    (tema artigo roteiro legendas : String) (now : Nat) : DB :=
  { db with
      contents := db.contents ++
        [⟨nextContentId db, user_id, tema, artigo, roteiro, legendas, now⟩] }

/-- Ordering used by the history query: `created_at` descending. -/
def contentGE (x y : ContentRecord) : Prop := y.created_at ≤ x.created_at

instance : DecidableRel contentGE := fun x y => Nat.decLe y.created_at x.created_at

instance : IsTotal ContentRecord contentGE :=
  ⟨fun a b => Nat.le_total b.created_at a.created_at⟩

instance : IsTrans ContentRecord contentGE :=
  ⟨fun _ _ _ h1 h2 => Nat.le_trans h2 h1⟩

/-- The history query (src/app.py line 177): `SELECT tema, created_at FROM
contents WHERE user_id = ... ORDER BY created_at DESC`.  sqlite leaves the
relative order of rows with equal `created_at` unspecified; the embedding
refines it to a stable sort of the rowid scan order, one of the permitted
behaviours. -/
def listByOwner (db : DB) (user_id : Nat) : List (String × Nat) :=
  ((db.contents.filter (fun r => r.user_id == user_id)).insertionSort contentGE).map
    (fun r => (r.tema, r.created_at))

/-- Substring test, the embedding of the Python `in` operator on `str`. -/
def strContains (s pat : String) : Bool :=
  s.data.tails.any (fun t => pat.data.isPrefixOf t)

/-- Model of `ViralContentGenerator.generate_content` (src/app.py lines
39-45): the AI service is an oracle `ai` returning `some text` on success and
`none` when `model.generate_content` raises; the except branch returns the
fixed apology string (and surfaces an `st.error`, which the callers ignore). -/
def generate_content (ai : String → Option String) (prompt : String) : String :=
  match ai prompt with
  | some t => t
  | none => "Erro ao gerar conteúdo. Verifique suas permissões de API e o faturamento no Google Cloud."

/-- The article prompt f-string (src/app.py line 144). -/
def prompt_artigo (tema publico tendencia amostra : String) : String :=
  "Escreva um artigo de blog otimizado para SEO sobre \x27" ++ tema ++
    "\x27 para um público de \x27" ++ publico ++
    "\x27, conectando com a tendência \x27" ++ tendencia ++
    "\x27 e com o tom de \x27" ++ amostra ++ "\x27."

/-- The script prompt f-string (src/app.py line 148). -/
def prompt_roteiro (artigo : String) : String :=
  "Baseado no seguinte artigo, crie um roteiro de vídeo para o YouTube de 10 minutos, com marcações para cortes virais. Artigo: " ++ artigo

/-- The generation button handler (src/app.py lines 141-161): with a
non-empty topic, generate the article, test the article text for the
`ERRO_IA:` marker, generate the script from it (or substitute the placeholder
when the marker is present), and INSERT the row; with an empty topic, only a
warning is surfaced.  Besides the new database it returns the list of prompts
actually sent to the AI oracle, in call order. -/
def generate_button (db : DB) (ai : String → Option String) (user_id : Nat)
    (tema publico tendencia amostra : String) (now : Nat) :
    DB × List String × Surface :=
  if tema ≠ "" then
    let pa := prompt_artigo tema publico tendencia amostra
    let artigo := generate_content ai pa
    if strContains artigo "ERRO_IA:" = false then
      let pr := prompt_roteiro artigo
      let roteiro := generate_content ai pr
      (append db user_id tema artigo roteiro "" now, [pa, pr], Surface.rerun)
    else
      (append db user_id tema artigo
          "Não foi possível gerar o roteiro pois a geração do artigo falhou." "" now,
        [pa], Surface.rerun)
  else (db, [], Surface.warning "Por favor, insira um tema.")

/-- The invariant behind the spec's Credential Store: every stored `password`
column value is a bcrypt record produced from some plaintext and salt, and is
not that plaintext. -/
def HashedOnly (db : DB) : Prop :=
  ∀ a ∈ db.users, ∃ pw salt, a.password = hashpw pw salt ∧ a.password ≠ pw

/-! Helper lemmas about the bcrypt model. -/

/-- The recompute-and-compare check accepts the exact password it was hashed
from, for every salt. -/
theorem checkpw_hashpw_self (p : Bytes) (salt : Nat) : checkpw p (hashpw p salt) = true := by
  simp [checkpw, hashpw]

/-- For passwords within bcrypt's 72-byte limit the digest determines the
password (the idealised collision-freeness of the digest core). -/
theorem bcryptDigest_inj (salt : Nat) {p q : Bytes} (hp : p.length ≤ 72) (hq : q.length ≤ 72)
    (h : bcryptDigest salt q = bcryptDigest salt p) : q = p := by
  unfold bcryptDigest at h
  rw [List.take_of_length_le hp, List.take_of_length_le hq] at h
  exact List.map_injective_iff.mpr (add_left_injective _) h

/-- Overwriting one position of a list with a different value changes it. -/
theorem set_ne_of_ne (p : Bytes) (i b : Nat) (hi : i < p.length)
    (hb : b ≠ p.get ⟨i, hi⟩) : p.set i b ≠ p := by
  intro h
  apply hb
  have h1 : (p.set i b)[i]? = some b := by simp [List.getElem?_set_self, hi]
  have h2 : p[i]? = some (p.get ⟨i, hi⟩) := by simp [List.getElem?_eq_getElem, hi]
  rw [h] at h1
  rw [h1] at h2
  exact (Option.some.injEq _ _ ▸ h2)

/-- A password at most 72 bytes long, mutated at one in-range position, is
rejected against the original hash. -/
theorem checkpw_mutation (p : Bytes) (salt i b : Nat) (hlen : p.length ≤ 72)
    (hi : i < p.length) (hb : b ≠ p.get ⟨i, hi⟩) :
    checkpw (p.set i b) (hashpw p salt) = false := by
  have hne : p.set i b ≠ p := set_ne_of_ne p i b hi hb
  have hd : bcryptDigest salt (p.set i b) ≠ bcryptDigest salt p := by
    intro h
    exact hne (bcryptDigest_inj salt hlen (by simpa using hlen) h)
  simp [checkpw, hashpw]
  exact fun h => absurd h hd

/-- After registering a fresh non-empty username, `verify` for that username
reduces to the bcrypt check of the candidate password against the stored
hash, returning the new row's id on success. -/
theorem verify_register_fresh (db : DB) (u : String) (p q : Bytes) (salt : Nat)
    (hu : u ≠ "") (hp : p ≠ []) (hfresh : ∀ a ∈ db.users, a.username ≠ u) :
    verify (register db u p salt).1 u q =
      if checkpw q (hashpw p salt) then some (nextUserId db) else none := by
  have hany : db.users.any (fun a => a.username == u) = false :=
    List.any_eq_false.mpr (fun a ha => by simpa using hfresh a ha)
  unfold register
  rw [if_pos ⟨hu, hp⟩, if_neg (by simp [hany])]
  unfold verify
  dsimp only
  rw [List.find?_append]
  rw [List.find?_eq_none.mpr (fun a ha => by simpa using hfresh a ha)]
  simp only [Option.none_or, List.find?_cons, beq_self_eq_true, if_true]

/-- A bcrypt record is never the plaintext it was produced from: its digest
part contains a value outside the byte range. -/
theorem hashpw_ne_plaintext (p : Bytes) (salt : Nat) (hbytes : ∀ b ∈ p, b < 256) :
    hashpw p salt ≠ p := by
  intro h
  cases p with
  | nil => simp [hashpw, bcryptDigest] at h
  | cons x xs =>
      have hmem : x + 256 * (salt + 1) ∈ hashpw (x :: xs) salt := by
        simp [hashpw, bcryptDigest]
      rw [h] at hmem
      have := hbytes _ hmem
      omega

/-! Helper lemmas about the history query. -/

/-- The history listing is always sorted by `created_at` descending
(non-strictly). -/
theorem listByOwner_sorted (db : DB) (uid : Nat) :
    List.Sorted (fun x y : String × Nat => y.2 ≤ x.2) (listByOwner db uid) := by
  unfold listByOwner
  apply List.Pairwise.map
  · intro a b hab
    exact hab
  · exact List.sorted_insertionSort contentGE _

/-- Every entry of the history listing comes from a stored record of the
queried owner. -/
theorem listByOwner_owner_only (db : DB) (uid : Nat) :
    ∀ x ∈ listByOwner db uid,
      ∃ r ∈ db.contents, r.user_id = uid ∧ x = (r.tema, r.created_at) := by
  intro x hx
  unfold listByOwner at hx
  obtain ⟨r, hr, hrx⟩ := List.mem_map.mp hx
  have hr2 : r ∈ db.contents.filter (fun r => r.user_id == uid) :=
    (List.mem_insertionSort contentGE).mp hr
  have hr3 := List.mem_filter.mp hr2
  exact ⟨r, hr3.1, by simpa using hr3.2, hrx.symm⟩

/-- An owner with no stored records gets the empty listing, not an error. -/
theorem listByOwner_no_records (db : DB) (uid : Nat)
    (h : ∀ r ∈ db.contents, r.user_id ≠ uid) : listByOwner db uid = [] := by
  unfold listByOwner
  have hf : db.contents.filter (fun r => r.user_id == uid) = [] :=
    List.filter_eq_nil_iff.mpr (fun r hr => by simpa using h r hr)
  rw [hf]
  rfl

/-- Sorting by `created_at` descending puts an appended record with a strictly
largest timestamp at the head. -/
theorem insertionSort_head_of_max (l : List ContentRecord) (m : ContentRecord)
    (hmax : ∀ r ∈ l, r.created_at < m.created_at) :
    ((l ++ [m]).insertionSort contentGE).head? = some m := by
  have hperm := List.perm_insertionSort contentGE (l ++ [m])
  have hsor := List.sorted_insertionSort contentGE (l ++ [m])
  have hmem : m ∈ (l ++ [m]).insertionSort contentGE :=
    hperm.mem_iff.mpr (List.mem_append_right _ (List.mem_singleton.mpr rfl))
  cases hcase : (l ++ [m]).insertionSort contentGE with
  | nil =>
      rw [hcase] at hmem
      exact absurd hmem (List.not_mem_nil _)
  | cons h t =>
      rw [hcase] at hmem hsor hperm
      have hhead : h = m := by
        rcases List.mem_cons.mp hmem with he | ht
        · exact he.symm
        · have hge := List.rel_of_sorted_cons hsor _ ht
          have hhl : h ∈ l ++ [m] := hperm.mem_iff.mp (List.mem_cons_self h t)
          rcases List.mem_append.mp hhl with hold | hsing
          · have hlt : h.created_at < m.created_at := hmax h hold
            unfold contentGE at hge
            omega
          · simpa using hsing
      rw [hhead]
      rfl

/-- After an `append` whose timestamp strictly exceeds every stored timestamp
of that owner, the owner's history starts with the new record. -/
theorem listByOwner_append_head (db : DB) (uid : Nat)
    (tema art rot leg : String) (now : Nat)
    (hnow : ∀ r ∈ db.contents, r.user_id = uid → r.created_at < now) :
    (listByOwner (append db uid tema art rot leg now) uid).head? = some (tema, now) := by
  have hfil : (append db uid tema art rot leg now).contents.filter (fun r => r.user_id == uid)
      = db.contents.filter (fun r => r.user_id == uid) ++
        [(⟨nextContentId db, uid, tema, art, rot, leg, now⟩ : ContentRecord)] := by
    unfold append
    dsimp only
    rw [List.filter_append]
    congr 1
    simp
  have hmax : ∀ r ∈ db.contents.filter (fun r => r.user_id == uid),
      r.created_at < (⟨nextContentId db, uid, tema, art, rot, leg, now⟩ : ContentRecord).created_at := by
    intro r hr
    have h1 := (List.mem_filter.mp hr).1
    have h2 : r.user_id = uid := by simpa using (List.mem_filter.mp hr).2
    exact hnow r h1 h2
  unfold listByOwner
  rw [hfil]
  rw [List.head?_map, insertionSort_head_of_max _ _ hmax]
  rfl

/-! Claim C1. -/

/-- Claim C1, counterexample to the claim as stated: for the 73-byte password
`aaaa...a`, registration succeeds, and verifying with the single-character
mutation that changes the 73rd byte also SUCCEEDS, because bcrypt silently
truncates passwords to their first 72 bytes.  So a single-character mutation
of the original password is not always rejected. -/
theorem register_verify_truncation_cex :
    (List.replicate 73 97).set 72 98 ≠ List.replicate 73 97 ∧
    verify (register ⟨[], []⟩ "alice" (List.replicate 73 97) 5).1 "alice"
      ((List.replicate 73 97).set 72 98) = some 1 := by decide

/-- Claim C1, amended: registering a non-empty username with a non-empty
password of at most 72 bytes and then verifying that username accepts the
exact original password (returning the new account id), and rejects every
single-character mutation of it.  (For longer passwords, mutations beyond the
72nd byte are accepted, due to bcrypt's documented truncation.) -/
theorem register_verify_roundtrip (db : DB) (u : String) (p : Bytes) (salt i b : Nat)
    (hu : u ≠ "") (hp : p ≠ []) (hlen : p.length ≤ 72)
    (hfresh : ∀ a ∈ db.users, a.username ≠ u)
    (hi : i < p.length) (hb : b ≠ p.get ⟨i, hi⟩) :
    verify (register db u p salt).1 u p = some (nextUserId db) ∧
    verify (register db u p salt).1 u (p.set i b) = none := by
  rw [verify_register_fresh db u p p salt hu hp hfresh,
      verify_register_fresh db u p (p.set i b) salt hu hp hfresh,
      checkpw_hashpw_self, checkpw_mutation p salt i b hlen hi hb]
  exact ⟨rfl, rfl⟩

/-- Witness for C1's amended theorem at a concrete registration. -/
theorem register_verify_roundtrip_witness :
    verify (register ⟨[], []⟩ "alice" [97, 98] 3).1 "alice" [97, 98] = some (nextUserId ⟨[], []⟩) ∧
    verify (register ⟨[], []⟩ "alice" [97, 98] 3).1 "alice" ([97, 98].set 0 99) = none :=
  register_verify_roundtrip ⟨[], []⟩ "alice" [97, 98] 3 0 99
    (by decide) (by decide) (by decide) (by decide) (by decide) (by decide)

/-! Claim C2. -/

/-- Claim C2: re-registering an already-present (hence non-empty) username
with any non-empty password surfaces the duplicate-username error and leaves
the database unchanged, and registration preserves uniqueness of usernames
across the accounts table. -/
theorem register_duplicate_username (db : DB) (u : String) (p : Bytes) (salt : Nat)
    (hu : ∃ a ∈ db.users, a.username = u) (hne : u ≠ "") (hp : p ≠ []) :
    register db u p salt = (db, Surface.error "Esse nome de usuário já existe.") ∧
    ∀ (db₂ : DB) (u₂ : String) (p₂ : Bytes) (s₂ : Nat),
      (db₂.users.map Account.username).Nodup →
      ((register db₂ u₂ p₂ s₂).1.users.map Account.username).Nodup := by
  constructor
  · unfold register
    rw [if_pos ⟨hne, hp⟩, if_pos]
    obtain ⟨a, ha, hau⟩ := hu
    exact List.any_eq_true.mpr ⟨a, ha, by simp [hau]⟩
  · intro db₂ u₂ p₂ s₂ hnd
    unfold register
    split
    · split
      · exact hnd
      · rename_i hany
        have hnotmem : ∀ a ∈ db₂.users, a.username ≠ u₂ := by
          intro a ha
          have hany2 : db₂.users.any (fun a => a.username == u₂) = false :=
            Bool.eq_false_iff.mpr hany
          have := List.any_eq_false.mp hany2 a ha
          simpa using this
        simp only [List.map_append, List.map_cons, List.map_nil]
        rw [List.nodup_append]
        refine ⟨hnd, List.nodup_singleton _, ?_⟩
        intro x hx hx2
        obtain ⟨a, ha, hax⟩ := List.mem_map.mp hx
        have hxu : x = u₂ := by simpa using hx2
        exact hnotmem a ha (hax.trans hxu)
    · exact hnd

/-- Witness for C2: a second registration of `alice` fails as a duplicate. -/
theorem register_duplicate_username_witness :
    register (register ⟨[], []⟩ "alice" [97] 3).1 "alice" [98] 4 =
      ((register ⟨[], []⟩ "alice" [97] 3).1, Surface.error "Esse nome de usuário já existe.") ∧
    ∀ (db₂ : DB) (u₂ : String) (p₂ : Bytes) (s₂ : Nat),
      (db₂.users.map Account.username).Nodup →
      ((register db₂ u₂ p₂ s₂).1.users.map Account.username).Nodup :=
  register_duplicate_username (register ⟨[], []⟩ "alice" [97] 3).1 "alice" [98] 4
    (by decide) (by decide) (by decide)

/-! Claim C3. -/

/-- Claim C3: in a database whose usernames are unique (the sqlite `UNIQUE`
constraint), `verify` fails exactly when no account with the username exists
or the password does not pass the bcrypt check against the stored hash; in
either failure case the login handler surfaces the one shared error message,
so the two causes are indistinguishable to the caller; and `verify` never
succeeds for a username that was never registered. -/
theorem verify_invalid_credentials (db : DB) (u : String) (p : Bytes) (sess : Session)
    (hnodup : (db.users.map Account.username).Nodup) (hanon : sess.logged_in = false) :
    (verify db u p = none ↔ ¬ ∃ a ∈ db.users, a.username = u ∧ checkpw p a.password = true) ∧
    (verify db u p = none →
      login_page sess db (AuthAction.login u p) = (sess, db, Surface.error "Usuário ou senha inválidos.")) ∧
    ((∀ a ∈ db.users, a.username ≠ u) → verify db u p = none) := by
  refine ⟨?_, ?_, ?_⟩
  · unfold verify
    cases hfind : db.users.find? (fun a => a.username == u) with
    | none =>
        have hall := List.find?_eq_none.mp hfind
        simp only [eq_self_iff_true, true_iff]
        rintro ⟨a, ha, hau, _⟩
        exact (hall a ha) (by simp [hau])
    | some a =>
        have hmem := List.mem_of_find?_eq_some hfind
        have hau : a.username = u := by simpa using List.find?_some hfind
        by_cases hcp : checkpw p a.password = true
        · simp only [hcp, if_true]
          constructor
          · intro h
            exact absurd h (by simp)
          · intro h
            exact absurd ⟨a, hmem, hau, hcp⟩ h
        · have hcp2 : checkpw p a.password = false := Bool.eq_false_iff.mpr hcp
          dsimp only
          rw [hcp2, if_neg Bool.false_ne_true]
          simp only [eq_self_iff_true, true_iff]
          rintro ⟨a', ha', hau', hcp'⟩
          have haa : a' = a :=
            List.inj_on_of_nodup_map hnodup ha' hmem (by rw [hau', hau])
          rw [haa] at hcp'
          exact hcp hcp'
  · intro hv
    unfold login_page
    simp [hanon, hv]
  · intro hall
    unfold verify
    have hfn : db.users.find? (fun a => a.username == u) = none :=
      List.find?_eq_none.mpr (fun a ha => by simpa using hall a ha)
    rw [hfn]

/-- Witness for C3 at a concrete database and an unregistered username. -/
theorem verify_invalid_credentials_witness :
    (verify ⟨[⟨1, "alice", hashpw [97] 3⟩], []⟩ "bob" [97] = none ↔
      ¬ ∃ a ∈ (⟨[⟨1, "alice", hashpw [97] 3⟩], []⟩ : DB).users,
        a.username = "bob" ∧ checkpw [97] a.password = true) ∧
    (verify ⟨[⟨1, "alice", hashpw [97] 3⟩], []⟩ "bob" [97] = none →
      login_page ⟨false, none, none⟩ ⟨[⟨1, "alice", hashpw [97] 3⟩], []⟩ (AuthAction.login "bob" [97]) =
        (⟨false, none, none⟩, ⟨[⟨1, "alice", hashpw [97] 3⟩], []⟩, Surface.error "Usuário ou senha inválidos.")) ∧
    ((∀ a ∈ (⟨[⟨1, "alice", hashpw [97] 3⟩], []⟩ : DB).users, a.username ≠ "bob") →
      verify ⟨[⟨1, "alice", hashpw [97] 3⟩], []⟩ "bob" [97] = none) :=
  verify_invalid_credentials ⟨[⟨1, "alice", hashpw [97] 3⟩], []⟩ "bob" [97] ⟨false, none, none⟩
    (by decide) rfl

/-! Claim C4. -/

/-- Claim C4, counterexample to the claim as stated: when the appended record
carries the same `created_at` as an existing record of the same owner (the
timestamp has one-second granularity, so same-second inserts collide, and the
`ORDER BY created_at DESC` query does not break ties), the listing does not
return the new record first. -/
theorem append_listByOwner_tie_cex :
    listByOwner (append ⟨[⟨1, "u", hashpw [97] 3⟩], [⟨1, 1, "a", "", "", "", 5⟩]⟩ 1 "b" "art" "rot" "" 5) 1
      = [("a", 5), ("b", 5)] ∧
    (listByOwner (append ⟨[⟨1, "u", hashpw [97] 3⟩], [⟨1, 1, "a", "", "", "", 5⟩]⟩ 1 "b" "art" "rot" "" 5) 1).head?
      ≠ some ("b", 5) := by decide

/-- Claim C4, amended: after `append` of a record whose `created_at` strictly
exceeds every stored record of that owner, the owner's listing returns the
new record first; the listing is always ordered by `created_at` descending
(non-strictly); every entry of the listing comes from a record of the queried
owner (records of other owners never appear); and an owner with no records
yields the empty sequence rather than an error.  When the new record ties an
existing timestamp the new record need not come first. -/
theorem append_listByOwner_ordered (db : DB) (uid uid₂ : Nat)
    (tema art rot leg : String) (now : Nat)
    (hnow : ∀ r ∈ db.contents, r.user_id = uid → r.created_at < now)
    (h₂ : ∀ r ∈ (append db uid tema art rot leg now).contents, r.user_id ≠ uid₂) :
    (listByOwner (append db uid tema art rot leg now) uid).head? = some (tema, now) ∧
    List.Sorted (fun x y : String × Nat => y.2 ≤ x.2)
      (listByOwner (append db uid tema art rot leg now) uid) ∧
    (∀ x ∈ listByOwner (append db uid tema art rot leg now) uid,
      ∃ r ∈ (append db uid tema art rot leg now).contents,
        r.user_id = uid ∧ x = (r.tema, r.created_at)) ∧
    listByOwner (append db uid tema art rot leg now) uid₂ = [] :=
  ⟨listByOwner_append_head db uid tema art rot leg now hnow,
   listByOwner_sorted _ uid,
   listByOwner_owner_only _ uid,
   listByOwner_no_records _ uid₂ h₂⟩

/-- Witness for C4's amended theorem at a concrete store. -/
theorem append_listByOwner_ordered_witness :
    (listByOwner (append ⟨[⟨1, "u", hashpw [97] 3⟩], [⟨1, 1, "a", "", "", "", 5⟩]⟩ 1 "b" "art" "rot" "" 9) 1).head? = some ("b", 9) ∧
    List.Sorted (fun x y : String × Nat => y.2 ≤ x.2)
      (listByOwner (append ⟨[⟨1, "u", hashpw [97] 3⟩], [⟨1, 1, "a", "", "", "", 5⟩]⟩ 1 "b" "art" "rot" "" 9) 1) ∧
    (∀ x ∈ listByOwner (append ⟨[⟨1, "u", hashpw [97] 3⟩], [⟨1, 1, "a", "", "", "", 5⟩]⟩ 1 "b" "art" "rot" "" 9) 1,
      ∃ r ∈ (append ⟨[⟨1, "u", hashpw [97] 3⟩], [⟨1, 1, "a", "", "", "", 5⟩]⟩ 1 "b" "art" "rot" "" 9).contents,
        r.user_id = 1 ∧ x = (r.tema, r.created_at)) ∧
    listByOwner (append ⟨[⟨1, "u", hashpw [97] 3⟩], [⟨1, 1, "a", "", "", "", 5⟩]⟩ 1 "b" "art" "rot" "" 9) 2 = [] :=
  append_listByOwner_ordered ⟨[⟨1, "u", hashpw [97] 3⟩], [⟨1, 1, "a", "", "", "", 5⟩]⟩ 1 2 "b" "art" "rot" "" 9
    (by decide) (by decide)

/-! Claim C5. -/

/-- Claim C5 evaluated at its failing input: inserting a content row whose
`user_id` (999) references no account does NOT fail — the row is inserted
anyway, because the declared `FOREIGN KEY` is never enabled on the sqlite
connections the program opens.  The claim says the operation fails with
`UnknownOwner` and inserts nothing. -/
theorem append_ignores_unknown_owner :
    (∀ a ∈ (⟨[⟨1, "alice", hashpw [97] 3⟩], []⟩ : DB).users, a.id ≠ 999) ∧
    (append ⟨[⟨1, "alice", hashpw [97] 3⟩], []⟩ 999 "t" "artigo" "roteiro" "" 10).contents =
      [⟨1, 999, "t", "artigo", "roteiro", "", 10⟩] := by decide

/-! Claim C6. -/

/-- Claim C6 evaluated at its failing input: when every AI call raises, the
stored row's script field holds the generic apology text returned by
`generate_content`, not the explanatory placeholder, and TWO prompts are sent
(the script-generation call is not skipped), because the handler looks for
the marker `ERRO_IA:` which the error string of `generate_content` never
contains.  The claim says the script call is skipped and the placeholder is
persisted. -/
theorem failed_article_call_not_skipped :
    ((generate_button ⟨[⟨1, "alice", hashpw [97] 3⟩], []⟩ (fun _ => none) 1 "topic" "Geral" "" "" 10).2.1.length = 2) ∧
    ∃ r ∈ (generate_button ⟨[⟨1, "alice", hashpw [97] 3⟩], []⟩ (fun _ => none) 1 "topic" "Geral" "" "" 10).1.contents,
      r.roteiro = "Erro ao gerar conteúdo. Verifique suas permissões de API e o faturamento no Google Cloud." ∧
      r.roteiro ≠ "Não foi possível gerar o roteiro pois a geração do artigo falhou." := by decide

/-! Claim C7. -/

/-- Claim C7: a registration submission from the anonymous state leaves the
session exactly as it was — in particular still anonymous — whatever the
outcome (success, duplicate username, or empty fields); registration never
logs the user in. -/
theorem register_keeps_session_anonymous (sess : Session) (db : DB)
    (u : String) (p : Bytes) (salt : Nat) (h : sess.logged_in = false) :
    (login_page sess db (AuthAction.registerA u p salt)).1 = sess ∧
    (login_page sess db (AuthAction.registerA u p salt)).1.logged_in = false := by
  unfold login_page
  simp [h]

/-- Witness for C7 at a concrete anonymous session. -/
theorem register_keeps_session_anonymous_witness :
    (login_page ⟨false, none, none⟩ ⟨[], []⟩ (AuthAction.registerA "alice" [97] 3)).1 = ⟨false, none, none⟩ ∧
    (login_page ⟨false, none, none⟩ ⟨[], []⟩ (AuthAction.registerA "alice" [97] 3)).1.logged_in = false :=
  register_keeps_session_anonymous ⟨false, none, none⟩ ⟨[], []⟩ "alice" [97] 3 rfl

/-! Claim C8. -/

/-- Claim C8: a successful registration stores exactly the salted bcrypt
record of the password in the `password` column — never the plaintext (the
stored value differs from the password bytes) — the stored-values-are-hashes
invariant is preserved, and the content-generation flow never touches the
accounts table.  One-wayness itself is carried by the idealised digest model
described at `bcryptDigest`. -/
theorem register_stores_salted_hash (db : DB) (u : String) (p : Bytes) (salt : Nat)
    (ai : String → Option String) (uid : Nat)
    (tema publico tendencia amostra : String) (now : Nat)
    (hbytes : ∀ b ∈ p, b < 256) (hinv : HashedOnly db)
    (hu : u ≠ "") (hp : p ≠ []) (hfresh : ∀ a ∈ db.users, a.username ≠ u) :
    (register db u p salt).1.users = db.users ++ [⟨nextUserId db, u, hashpw p salt⟩] ∧
    hashpw p salt ≠ p ∧
    HashedOnly (register db u p salt).1 ∧
    ((generate_button db ai uid tema publico tendencia amostra now).1).users = db.users := by
  have hany : db.users.any (fun a => a.username == u) = false :=
    List.any_eq_false.mpr (fun a ha => by simpa using hfresh a ha)
  have husers : (register db u p salt).1.users =
      db.users ++ [⟨nextUserId db, u, hashpw p salt⟩] := by
    unfold register
    rw [if_pos ⟨hu, hp⟩, if_neg (by simp [hany])]
  refine ⟨husers, hashpw_ne_plaintext p salt hbytes, ?_, ?_⟩
  · intro a ha
    rw [husers] at ha
    rcases List.mem_append.mp ha with hold | hnew
    · exact hinv a hold
    · have : a = ⟨nextUserId db, u, hashpw p salt⟩ := by simpa using hnew
      exact ⟨p, salt, by rw [this], by rw [this]; exact hashpw_ne_plaintext p salt hbytes⟩
  · unfold generate_button
    split
    · dsimp only
      split <;> rfl
    · rfl

/-- Witness for C8 at a concrete registration into the empty store. -/
theorem register_stores_salted_hash_witness :
    (register ⟨[], []⟩ "alice" [97, 98] 3).1.users =
      (⟨[], []⟩ : DB).users ++ [⟨nextUserId ⟨[], []⟩, "alice", hashpw [97, 98] 3⟩] ∧
    hashpw [97, 98] 3 ≠ [97, 98] ∧
    HashedOnly (register ⟨[], []⟩ "alice" [97, 98] 3).1 ∧
    ((generate_button ⟨[], []⟩ (fun _ => none) 1 "t" "Geral" "" "" 7).1).users = (⟨[], []⟩ : DB).users :=
  register_stores_salted_hash ⟨[], []⟩ "alice" [97, 98] 3 (fun _ => none) 1 "t" "Geral" "" "" 7
    (by decide) (by intro a ha; exact absurd ha (List.not_mem_nil a)) (by decide) (by decide) (by decide)

/-! Claim C9. -/

/-- Claim C9: a registration with an empty username or an empty password
surfaces the fill-all-fields warning and persists nothing: the database is
returned unchanged. -/
theorem register_empty_input_rejected (db : DB) (u : String) (p : Bytes) (salt : Nat)
    (h : u = "" ∨ p = []) :
    register db u p salt = (db, Surface.warning "Por favor, preencha todos os campos.") := by
  unfold register
  rcases h with h | h <;> simp [h]

/-- Witness for C9 with an empty username. -/
theorem register_empty_input_rejected_witness :
    register ⟨[], []⟩ "" [97] 3 = (⟨[], []⟩, Surface.warning "Por favor, preencha todos os campos.") :=
  register_empty_input_rejected ⟨[], []⟩ "" [97] 3 (Or.inl rfl)

/-! Claim C10. -/

/-- Claim C10: pressing the generation button with an empty topic leaves the
content store unchanged, sends no prompt to the AI service, and only surfaces
a warning. -/
theorem empty_topic_no_generation (db : DB) (ai : String → Option String)
    (uid : Nat) (publico tendencia amostra : String) (now : Nat) :
    generate_button db ai uid "" publico tendencia amostra now =
      (db, [], Surface.warning "Por favor, insira um tema.") := by
  simp [generate_button]

end ViralGenix
